import Mathlib

/-!
Shallow embedding of `elasticapm/metrics/base_metrics.py`: the metric
primitives (`Counter`, `Gauge`, `NoopMetric`), the labeled metric-set
storage (`MetricsSet`), and the registry (`MetricsRegistry`).

Modelling conventions:
* Python numbers are `Int`; a Python value that may be `None` is an `Option`.
* Python dicts are association lists in insertion order; `dict.update`
  replaces an existing key in place and appends a new key at the end,
  matching CPython's insertion-order semantics.
* Python object identity is modelled by an `id : Nat` field on `Counter`
  and `Gauge`; each construction inside a `MetricsSet` uses the set's
  `nextId` and bumps it, so distinct constructions yield distinct ids.
* Exceptions are modelled by `Except PyExc` / an `Option PyExc` component;
  Python distinguishes `ImportError` from other exceptions, so `PyExc`
  records that distinction.
* Compiled regex patterns (`_ignore_patterns`) are modelled as boolean
  predicates on names (`pattern.match(name)`).
-/

namespace BaseMetrics

/-- Lexicographic order on `(key, value)` string pairs: Python's `sorted`
on dict items compares tuples lexicographically. -/
def pairLe (a b : String × String) : Prop :=
  a.1 < b.1 ∨ (a.1 = b.1 ∧ a.2 ≤ b.2)

instance : DecidableRel pairLe := fun _ _ =>
  inferInstanceAs (Decidable (_ ∨ _))

instance : IsTotal (String × String) pairLe := by
  constructor
  intro a b
  rcases lt_trichotomy a.1 b.1 with h | h | h
  · exact Or.inl (Or.inl h)
  · rcases le_total a.2 b.2 with h2 | h2
    · exact Or.inl (Or.inr ⟨h, h2⟩)
    · exact Or.inr (Or.inr ⟨h.symm, h2⟩)
  · exact Or.inr (Or.inl h)

instance : IsTrans (String × String) pairLe := by
  constructor
  intro a b c hab hbc
  rcases hab with h1 | ⟨e1, v1⟩
  · rcases hbc with h2 | ⟨e2, _⟩
    · exact Or.inl (h1.trans h2)
    · exact Or.inl (e2 ▸ h1)
  · rcases hbc with h2 | ⟨e2, v2⟩
    · exact Or.inl (e1 ▸ h2)
    · exact Or.inr ⟨e1.trans e2, v1.trans v2⟩

instance : IsAntisymm (String × String) pairLe := by
  constructor
  intro a b hab hba
  rcases hab with h1 | ⟨e1, v1⟩
  · rcases hba with h2 | ⟨e2, _⟩
    · exact absurd (h1.trans h2) (lt_irrefl _)
    · exact absurd h1 (e2 ▸ lt_irrefl _)
  · rcases hba with h2 | ⟨_, v2⟩
    · exact absurd h2 (e1 ▸ lt_irrefl _)
    · exact Prod.ext e1 (le_antisymm v1 v2)

/-- A canonical label key: the sorted sequence of `(labelName, value)`
pairs.  Embeds `MetricsSet._labels_to_key`, which sorts the label items
(Python tuple comparison is lexicographic) and stringifies the values;
label values are already strings here, so stringification is identity. -/
def labels_to_key (labels : List (String × String)) : List (String × String) :=
  List.insertionSort pairLe labels

/-- Association-list lookup with Python `dict` semantics (`d[k]` /
`k in d`). -/
def lookupA {α β : Type} [DecidableEq α] : List (α × β) → α → Option β
  | [], _ => none
  | (k, v) :: rest, k' => if k' = k then some v else lookupA rest k'

/-- Embeds `Counter`: `label`, `_initial_value`, `_val`, plus an `id`
modelling Python object identity (see the header note). -/
structure Counter where
  id : Nat
  label : String
  initial_value : Int
  val : Int
deriving DecidableEq, Repr

/-- Embeds `Counter.__init__(label, initial_value=0)`:
`self._val = self._initial_value = initial_value`. -/
def Counter.new (label : String) (initial_value : Int) (id : Nat) : Counter :=
  { id := id, label := label, initial_value := initial_value, val := initial_value }

/-- Embeds `Counter.inc(delta=1)`: `self._val += delta`; the mutated object
is the return value (`return self`). -/
def Counter.inc (c : Counter) (delta : Int) : Counter :=
  { c with val := c.val + delta }

/-- Embeds `Counter.dec(delta=1)`: `self._val -= delta`; returns itself. -/
def Counter.dec (c : Counter) (delta : Int) : Counter :=
  { c with val := c.val - delta }

/-- Embeds `Counter.reset()`: `self._val = self._initial_value`; returns
itself. -/
def Counter.reset (c : Counter) : Counter :=
  { c with val := c.initial_value }

/-- Embeds `Gauge`: `label` and `_val` (initially `None`), plus an
object-identity `id`. -/
structure Gauge where
  id : Nat
  label : String
  val : Option Int
deriving DecidableEq, Repr

/-- Embeds `Gauge.__init__(label)`: `self._val = None`. -/
def Gauge.new (label : String) (id : Nat) : Gauge :=
  { id := id, label := label, val := none }

/-- Embeds the `Gauge.val` setter: plain assignment. -/
def Gauge.set (g : Gauge) (v : Option Int) : Gauge :=
  { g with val := v }

/-- An entry of `MetricsSet._counters`: either a real `Counter` or the
shared `noop_metric` singleton (a `NoopMetric` carries no state). -/
inductive CMetric where
  | real (c : Counter)
  | noop
deriving DecidableEq, Repr

/-- An entry of `MetricsSet._gauges`: a real `Gauge` or `noop_metric`. -/
inductive GMetric where
  | real (g : Gauge)
  | noop
deriving DecidableEq, Repr

/-- The `val` property read through the counter-map handle:
`Counter.val` returns the number, `NoopMetric.val` returns `None`. -/
def CMetric.val : CMetric → Option Int
  | .real c => some c.val
  | .noop => none

/-- The `val` property read through the gauge-map handle. -/
def GMetric.val : GMetric → Option Int
  | .real g => g.val
  | .noop => none

/-- The `inc(delta)` call on a counter-map handle.  Result: (new state of the
metric, the Python return value).  `Counter.inc` ends in `return self`,
so the return value is the mutated handle; `NoopMetric.inc` has a bare
`return`, i.e. it returns `None`. -/
def CMetric.inc (m : CMetric) (delta : Int) : CMetric × Option CMetric :=
  match m with
  | .real c => let c2 := c.inc delta; (.real c2, some (.real c2))
  | .noop => (.noop, none)

/-- The `dec(delta)` call on a counter-map handle; `Counter.dec` returns itself,
`NoopMetric.dec` returns `None`. -/
def CMetric.dec (m : CMetric) (delta : Int) : CMetric × Option CMetric :=
  match m with
  | .real c => let c2 := c.dec delta; (.real c2, some (.real c2))
  | .noop => (.noop, none)

/-- The `reset()` call on a counter-map handle; `Counter.reset` returns itself,
`NoopMetric.reset` returns `None`. -/
def CMetric.reset (m : CMetric) : CMetric × Option CMetric :=
  match m with
  | .real c => let c2 := c.reset; (.real c2, some (.real c2))
  | .noop => (.noop, none)

/-- Assigning the `val` property through a gauge-map handle: a real
`Gauge` stores the value, `NoopMetric`'s setter discards it. -/
def GMetric.set (m : GMetric) (v : Option Int) : GMetric :=
  match m with
  | .real g => .real (g.set v)
  | .noop => .noop

/-- The key of the `_counters` / `_gauges` dicts: `(name, labelKey)`. -/
abbrev MetricKey : Type := String × List (String × String)

/-- Embeds the state of a `MetricsSet`: the `_counters` and `_gauges`
dicts (insertion-ordered association lists).  `nextId` feeds the
object-identity ids of newly constructed metrics.  The back-reference
`self._registry` is represented by passing the registry's
`_ignore_patterns` to the operations that consult it. -/
structure MetricsSet where
  counters : List (MetricKey × CMetric)
  gauges : List (MetricKey × GMetric)
  nextId : Nat

/-- Embeds `MetricsSet.counter(name, **labels)`: compute the label key,
look `(name, labels)` up in `_counters`; on a miss, store `noop_metric`
when `self._registry._ignore_patterns` is non-empty and some pattern
matches `name`, else a fresh `Counter(name)`; return the stored metric. -/
def MetricsSet.counter (ms : MetricsSet) (ignore_patterns : List (String → Bool))
    (name : String) (labels : List (String × String)) : CMetric × MetricsSet :=
  let key : MetricKey := (name, labels_to_key labels)
  match lookupA ms.counters key with
  | some m => (m, ms)
  | none =>
    let m : CMetric :=
      if !ignore_patterns.isEmpty && ignore_patterns.any (fun pattern => pattern name) then
        .noop
      else
        .real (Counter.new name 0 ms.nextId)
    (m, { ms with counters := ms.counters ++ [(key, m)], nextId := ms.nextId + 1 })

/-- Embeds `MetricsSet.gauge(name, **labels)`: same shape as `counter`,
against `_gauges`, creating `Gauge(name)` in the real case. -/
def MetricsSet.gauge (ms : MetricsSet) (ignore_patterns : List (String → Bool))
    (name : String) (labels : List (String × String)) : GMetric × MetricsSet :=
  let key : MetricKey := (name, labels_to_key labels)
  match lookupA ms.gauges key with
  | some m => (m, ms)
  | none =>
    let m : GMetric :=
      if !ignore_patterns.isEmpty && ignore_patterns.any (fun pattern => pattern name) then
        .noop
      else
        .real (Gauge.new name ms.nextId)
    (m, { ms with gauges := ms.gauges ++ [(key, m)], nextId := ms.nextId + 1 })

/-- Python `dict.update({name: v})`: replace an existing key in place,
otherwise append. -/
def dictUpdate (d : List (String × Option Int)) (name : String) (v : Option Int) :
    List (String × Option Int) :=
  match d with
  | [] => [(name, v)]
  | (n, w) :: rest =>
    if n = name then (n, v) :: rest else (n, w) :: dictUpdate rest name v

/-- The step `samples[labels].update({name: {"value": v}})` on the
`defaultdict(dict)` used by `MetricsSet.collect`: group by label key,
updating the group's inner dict. -/
def samplesAdd (s : List (List (String × String) × List (String × Option Int)))
    (labels : List (String × String)) (name : String) (v : Option Int) :
    List (List (String × String) × List (String × Option Int)) :=
  match s with
  | [] => [(labels, [(name, v)])]
  | (l, d) :: rest =>
    if l = labels then (l, dictUpdate d name v) :: rest
    else (l, d) :: samplesAdd rest labels name v

/-- One step of `MetricsSet.collect`'s loop over `_counters`:
`if c is not noop_metric: samples[labels].update({name: {"value": c.val}})`. -/
def addCounterSample (s : List (List (String × String) × List (String × Option Int)))
    (e : MetricKey × CMetric) :
    List (List (String × String) × List (String × Option Int)) :=
  match e with
  | ((name, labels), .real c) => samplesAdd s labels name (some c.val)
  | (_, .noop) => s

/-- One step of `MetricsSet.collect`'s loop over `_gauges`:
`if g is not noop_metric: samples[labels].update({name: {"value": g.val}})`. -/
def addGaugeSample (s : List (List (String × String) × List (String × Option Int)))
    (e : MetricKey × GMetric) :
    List (List (String × String) × List (String × Option Int)) :=
  match e with
  | ((name, labels), .real g) => samplesAdd s labels name g.val
  | (_, .noop) => s

/-- The grouping pass of `MetricsSet.collect`: fold the `_counters`
entries, then the `_gauges` entries, into the per-labelKey samples dict,
skipping entries whose stored metric `is noop_metric`.  Counter values
come out as `{"value": c.val}` (an int), gauge values as the gauge's
`val` (possibly `None`). -/
def collectSamples (ms : MetricsSet) :
    List (List (String × String) × List (String × Option Int)) :=
  ms.gauges.foldl addGaugeSample (ms.counters.foldl addCounterSample [])

/-- One record yielded by `MetricsSet.collect`:
`{"samples": ..., "timestamp": ..., "tags"?: ...}`. -/
structure Record where
  samples : List (String × Option Int)
  timestamp : Int
  tags : Option (List (String × String))
deriving DecidableEq, Repr

/-- Embeds `MetricsSet.collect()`.  The base class's `before_collect` is
`pass`; the timestamp captured once per call (`int(time.time() * 1000000)`)
is an input.  For each non-empty samples group one record is yielded,
with `tags = {k: v for k, v in labels}` present only when the label key
is non-empty (truthiness of the tuple). -/
def MetricsSet.collect (ms : MetricsSet) (timestamp : Int) : List Record :=
  (collectSamples ms).map
    (fun p =>
      { samples := p.2, timestamp := timestamp,
        tags := if p.1 = [] then none else some p.1 })

/-- Exceptions, as far as `base_metrics.py` distinguishes them:
`register` catches exactly `ImportError`. -/
inductive PyExc where
  | importError (msg : String)
  | other (msg : String)
deriving DecidableEq, Repr

/-- Does `except ImportError` catch this exception? -/
def PyExc.isImportError : PyExc → Bool
  | .importError _ => true
  | .other _ => false

/-- Embeds the registry state used by the claims: the `_metricsets` dict
and the `_ignore_patterns` tuple (the timer, tags and queue function play
no part in the claims below; the queue function is modelled by returning
the list of queued events). -/
structure MetricsRegistry where
  metricsets : List (String × MetricsSet)
  ignore_patterns : List (String → Bool)

/-- Embeds `MetricsRegistry.register(class_path)`: no-op when the path is
already registered; otherwise run `import_string(class_path)` and
`class_obj(self)` inside `try/except ImportError` — an `ImportError`
from either step is logged and swallowed leaving `_metricsets` unchanged,
any other exception propagates (the dict assignment never runs). -/
def MetricsRegistry.register (reg : MetricsRegistry)
    (import_string : String → Except PyExc (MetricsRegistry → Except PyExc MetricsSet))
    (class_path : String) : Except PyExc MetricsRegistry :=
  if (lookupA reg.metricsets class_path).isSome then
    .ok reg
  else
    match import_string class_path with
    | .error e => if e.isImportError then .ok reg else .error e
    | .ok class_obj =>
      match class_obj reg with
      | .error e => if e.isImportError then .ok reg else .error e
      | .ok ms => .ok { reg with metricsets := reg.metricsets ++ [(class_path, ms)] }

/-- Embeds `constants.METRICSET`, the event kind each sample is queued under. -/
def METRICSET : String := "metricset"

/-- Embeds `MetricsRegistry.collect()`'s loop over
`for name, metricset in iteritems(self._metricsets): for data in
metricset.collect(): self._queue_func(constants.METRICSET, data)`.
Each metric-set's generator outcome is given as the records it yields
followed by the exception it raises, if any (`MetricsSet.collect` itself
never raises, but a subclass's `before_collect` may).  There is no
`try/except` in the loop, so an exception stops the iteration: records
queued so far stay queued and the exception propagates. -/
def registryCollect : List (List Record × Option PyExc) →
    List (String × Record) × Option PyExc
  | [] => ([], none)
  | (recs, none) :: rest =>
    let r := registryCollect rest
    (recs.map (fun d => (METRICSET, d)) ++ r.1, r.2)
  | (recs, some e) :: _ => (recs.map (fun d => (METRICSET, d)), some e)

/-- A mutation applied to a `Counter` by some caller: `inc(delta)` or
`dec(delta)`. -/
inductive CounterOp where
  | inc (delta : Int)
  | dec (delta : Int)
deriving DecidableEq, Repr

/-- Run a sequence of `inc`/`dec` calls against a counter.  Any
interleaving of concurrent callers is some such sequence: each call's
mutation runs alone under the counter's `_lock`. -/
def Counter.applyOps (c : Counter) : List CounterOp → Counter
  | [] => c
  | .inc d :: rest => (c.inc d).applyOps rest
  | .dec d :: rest => (c.dec d).applyOps rest

/-- Sum of the deltas of the `inc` operations in a sequence. -/
def incTotal : List CounterOp → Int
  | [] => 0
  | .inc d :: rest => d + incTotal rest
  | .dec _ :: rest => incTotal rest

/-- Sum of the deltas of the `dec` operations in a sequence. -/
def decTotal : List CounterOp → Int
  | [] => 0
  | .inc _ :: rest => decTotal rest
  | .dec d :: rest => d + decTotal rest

/-- A mutation applied through a counter-map handle (real or noop):
`inc(delta)`, `dec(delta)` or `reset()`. -/
inductive HOp where
  | inc (delta : Int)
  | dec (delta : Int)
  | reset
deriving DecidableEq, Repr

/-- Run a sequence of mutator calls against a counter-map handle,
following the metric's state (the Python return values are dropped). -/
def CMetric.applyHOps (m : CMetric) : List HOp → CMetric
  | [] => m
  | .inc d :: rest => (m.inc d).1.applyHOps rest
  | .dec d :: rest => (m.dec d).1.applyHOps rest
  | .reset :: rest => m.reset.1.applyHOps rest

/-- Run a sequence of `val`-property assignments against a gauge-map
handle. -/
def GMetric.applySets (m : GMetric) : List (Option Int) → GMetric
  | [] => m
  | v :: rest => (m.set v).applySets rest

/-- Drop the `noop_metric` entries of a `_counters` dict. -/
def dropNoopC : List (MetricKey × CMetric) → List (MetricKey × CMetric)
  | [] => []
  | (_, .noop) :: rest => dropNoopC rest
  | (k, .real c) :: rest => (k, .real c) :: dropNoopC rest

/-- Drop the `noop_metric` entries of a `_gauges` dict. -/
def dropNoopG : List (MetricKey × GMetric) → List (MetricKey × GMetric)
  | [] => []
  | (_, .noop) :: rest => dropNoopG rest
  | (k, .real g) :: rest => (k, .real g) :: dropNoopG rest

/-- The same metric set with every noop-backed entry removed. -/
def stripNoop (ms : MetricsSet) : MetricsSet :=
  { counters := dropNoopC ms.counters, gauges := dropNoopG ms.gauges,
    nextId := ms.nextId }

/-- A concrete sample record used by the closed counterexamples. -/
def rec0 : Record :=
  { samples := [("x", some 1)], timestamp := 0, tags := none }

theorem applyOps_initial_value (ops : List CounterOp) (c : Counter) :
    (c.applyOps ops).initial_value = c.initial_value := by
  induction ops generalizing c with
  | nil => rfl
  | cons op rest ih =>
    cases op with
    | inc d => exact ih (c.inc d)
    | dec d => exact ih (c.dec d)

theorem applyOps_val (ops : List CounterOp) (c : Counter) :
    (c.applyOps ops).val = c.val + incTotal ops - decTotal ops := by
  induction ops generalizing c with
  | nil => simp [Counter.applyOps, incTotal, decTotal]
  | cons op rest ih =>
    cases op with
    | inc d =>
      rw [Counter.applyOps, ih (c.inc d)]
      simp only [Counter.inc, incTotal, decTotal]
      ring
    | dec d =>
      rw [Counter.applyOps, ih (c.dec d)]
      simp only [Counter.dec, incTotal, decTotal]
      ring

theorem incTotal_replicate_one (n : Nat) :
    incTotal (List.replicate n (CounterOp.inc 1)) = n := by
  induction n with
  | zero => rfl
  | succ k ih => simp [List.replicate, incTotal, ih]; ring

theorem decTotal_replicate_one (n : Nat) :
    decTotal (List.replicate n (CounterOp.inc 1)) = 0 := by
  induction n with
  | zero => rfl
  | succ k ih => simp [List.replicate, decTotal, ih]

theorem labels_to_key_perm {L1 L2 : List (String × String)} (h : L1.Perm L2) :
    labels_to_key L1 = labels_to_key L2 :=
  List.eq_of_perm_of_sorted
    ((List.perm_insertionSort pairLe L1).trans
      (h.trans (List.perm_insertionSort pairLe L2).symm))
    (List.sorted_insertionSort pairLe L1)
    (List.sorted_insertionSort pairLe L2)

theorem lookupA_append_self {α β : Type} [DecidableEq α]
    (l : List (α × β)) (k : α) (v : β) :
    lookupA (l ++ [(k, v)]) k = some (lookupA l k |>.getD v) := by
  induction l with
  | nil => simp [lookupA]
  | cons p rest ih =>
    by_cases hk : k = p.1
    · simp [lookupA, hk]
    · simpa [lookupA, hk] using ih

/-- C3: `counter(name, L)` and `gauge(name, L)` are invariant under
permutation of the label pairs (the label key canonicalises by sorting),
and a repeated call with the same name and labels returns the identical
stored instance without changing the set. -/
theorem counter_gauge_label_permutation (ms : MetricsSet)
    (ips : List (String → Bool)) (name : String)
    (L1 L2 : List (String × String)) (h : L1.Perm L2) :
    ms.counter ips name L1 = ms.counter ips name L2 ∧
    ms.gauge ips name L1 = ms.gauge ips name L2 ∧
    (ms.counter ips name L1).2.counter ips name L1 =
      ((ms.counter ips name L1).1, (ms.counter ips name L1).2) ∧
    (ms.gauge ips name L1).2.gauge ips name L1 =
      ((ms.gauge ips name L1).1, (ms.gauge ips name L1).2) := by
  refine ⟨?_, ?_, ?_, ?_⟩
  · unfold MetricsSet.counter
    rw [labels_to_key_perm h]
  · unfold MetricsSet.gauge
    rw [labels_to_key_perm h]
  · unfold MetricsSet.counter
    cases hl : lookupA ms.counters (name, labels_to_key L1) with
    | some m => simp [hl]
    | none => simp [hl, lookupA_append_self]
  · unfold MetricsSet.gauge
    cases hl : lookupA ms.gauges (name, labels_to_key L1) with
    | some m => simp [hl]
    | none => simp [hl, lookupA_append_self]

/-- C3, witness: a concrete permuted pair of label lists resolving to the
same counter call result. -/
theorem counter_gauge_label_permutation_witness :
    ([(("b" : String), ("2" : String)), ("a", "1")]).Perm [("a", "1"), ("b", "2")] ∧
    (MetricsSet.mk [] [] 0).counter [] "m" [("b", "2"), ("a", "1")] =
      (MetricsSet.mk [] [] 0).counter [] "m" [("a", "1"), ("b", "2")] :=
  ⟨List.Perm.swap ("a", "1") ("b", "2") [],
   (counter_gauge_label_permutation (MetricsSet.mk [] [] 0) [] "m"
      [("b", "2"), ("a", "1")] [("a", "1"), ("b", "2")]
      (List.Perm.swap ("a", "1") ("b", "2") [])).1⟩

/-- C7: for every `Counter` built with initial value `v0` and any
sequence of `inc`/`dec` operations, `reset()` restores the value to
exactly the constructor-supplied `v0`, not zero. -/
theorem counter_reset_restores_initial (label : String) (v0 : Int) (id : Nat)
    (ops : List CounterOp) :
    ((Counter.new label v0 id).applyOps ops).reset.val = v0 := by
  simp [Counter.reset, applyOps_initial_value, Counter.new]

/-- C8: after any finite sequence of `inc`/`dec` calls the counter's
value is the initial value plus all increment deltas minus all decrement
deltas; in particular `N * M` calls of `inc 1` (any interleaving of `N`
callers doing `M` each) starting from `0` end at exactly `N * M`. -/
theorem counter_value_is_sum_of_deltas (label : String) (v : Int) (id : Nat)
    (ops : List CounterOp) (N M : Nat) :
    ((Counter.new label v id).applyOps ops).val = v + incTotal ops - decTotal ops ∧
    ((Counter.new label 0 id).applyOps (List.replicate (N * M) (CounterOp.inc 1))).val
      = (N * M : Nat) := by
  constructor
  · simp [applyOps_val, Counter.new]
  · simp [applyOps_val, Counter.new, incTotal_replicate_one, decTotal_replicate_one]

/-- C9, counterexample: on the no-op substitute, `inc` does not return
the handle itself — `NoopMetric.inc` returns `None` (so chained calls on
an ignored metric fail). -/
theorem noop_inc_returns_none :
    (CMetric.inc CMetric.noop 1).2 ≠ some (CMetric.inc CMetric.noop 1).1 := by
  simp [CMetric.inc]

/-- C9, amended: a real `Counter`'s `inc`, `dec` and `reset` each return
the handle itself (the mutated counter), so chaining is valid on real
counters; the no-op substitute's mutators instead return an absent value
(`None`), so callers that chain do need the metric to be real. -/
theorem counter_mutators_return_self (c : Counter) (d : Int) :
    ((CMetric.real c).inc d).2 = some ((CMetric.real c).inc d).1 ∧
    ((CMetric.real c).dec d).2 = some ((CMetric.real c).dec d).1 ∧
    (CMetric.real c).reset.2 = some (CMetric.real c).reset.1 ∧
    (CMetric.noop.inc d).2 = none ∧
    (CMetric.noop.dec d).2 = none ∧
    CMetric.noop.reset.2 = none := by
  refine ⟨rfl, rfl, rfl, rfl, rfl, rfl⟩

theorem applyHOps_noop (ops : List HOp) :
    CMetric.applyHOps CMetric.noop ops = CMetric.noop := by
  induction ops with
  | nil => rfl
  | cons op rest ih =>
    cases op <;>
      simpa [CMetric.applyHOps, CMetric.inc, CMetric.dec, CMetric.reset] using ih

theorem applySets_noop (vs : List (Option Int)) :
    GMetric.applySets GMetric.noop vs = GMetric.noop := by
  induction vs with
  | nil => rfl
  | cons v rest ih => simpa [GMetric.applySets, GMetric.set] using ih

/-- C4: when some ignore pattern matches the name, `counter`/`gauge`
store and return the no-op sink; its `val` reads as absent and any
sequence of mutator calls (`inc`/`dec`/`reset`, or value assignment on
the gauge side) leaves it the stateless noop with an absent value. -/
theorem ignored_name_returns_noop_sink (ms : MetricsSet)
    (ips : List (String → Bool)) (name : String)
    (labels : List (String × String)) (ops : List HOp) (vs : List (Option Int))
    (hc : lookupA ms.counters (name, labels_to_key labels) = none)
    (hg : lookupA ms.gauges (name, labels_to_key labels) = none)
    (hmatch : ips.any (fun pattern => pattern name) = true) :
    (ms.counter ips name labels).1 = CMetric.noop ∧
    (ms.gauge ips name labels).1 = GMetric.noop ∧
    CMetric.noop.val = none ∧
    CMetric.applyHOps CMetric.noop ops = CMetric.noop ∧
    (CMetric.applyHOps CMetric.noop ops).val = none ∧
    GMetric.applySets GMetric.noop vs = GMetric.noop ∧
    (GMetric.applySets GMetric.noop vs).val = none := by
  have hne : ips.isEmpty = false := by
    cases ips with
    | nil => simp at hmatch
    | cons p rest => rfl
  refine ⟨?_, ?_, rfl, applyHOps_noop ops, ?_, applySets_noop vs, ?_⟩
  · simp [MetricsSet.counter, hc, hne, hmatch]
  · simp [MetricsSet.gauge, hg, hne, hmatch]
  · rw [applyHOps_noop]
    rfl
  · rw [applySets_noop]
    rfl

/-- C4, witness: an ignore pattern matching the name "x" on a fresh set
yields the noop sink. -/
theorem ignored_name_returns_noop_sink_witness :
    lookupA (MetricsSet.mk [] [] 0).counters ("x", labels_to_key []) = none ∧
    ([fun n => n == "x"] : List (String → Bool)).any
      (fun pattern => pattern "x") = true ∧
    ((MetricsSet.mk [] [] 0).counter [fun n => n == "x"] "x" []).1 =
      CMetric.noop :=
  ⟨rfl, rfl,
   (ignored_name_returns_noop_sink (MetricsSet.mk [] [] 0) [fun n => n == "x"]
      "x" [] [HOp.inc 1, HOp.inc 1, HOp.reset] [some 5] rfl rfl rfl).1⟩

theorem foldl_addCounterSample_dropNoopC (l : List (MetricKey × CMetric))
    (s : List (List (String × String) × List (String × Option Int))) :
    List.foldl addCounterSample s (dropNoopC l) = List.foldl addCounterSample s l := by
  induction l generalizing s with
  | nil => rfl
  | cons e rest ih =>
    rcases e with ⟨⟨n, lb⟩, m⟩
    cases m with
    | real c => simp only [dropNoopC, List.foldl]; exact ih _
    | noop => simp only [dropNoopC, List.foldl, addCounterSample]; exact ih s

theorem foldl_addGaugeSample_dropNoopG (l : List (MetricKey × GMetric))
    (s : List (List (String × String) × List (String × Option Int))) :
    List.foldl addGaugeSample s (dropNoopG l) = List.foldl addGaugeSample s l := by
  induction l generalizing s with
  | nil => rfl
  | cons e rest ih =>
    rcases e with ⟨⟨n, lb⟩, m⟩
    cases m with
    | real g => simp only [dropNoopG, List.foldl]; exact ih _
    | noop => simp only [dropNoopG, List.foldl, addGaugeSample]; exact ih s

theorem foldl_addCounterSample_all_noop (l : List (MetricKey × CMetric))
    (s : List (List (String × String) × List (String × Option Int)))
    (h : ∀ p ∈ l, p.2 = CMetric.noop) :
    List.foldl addCounterSample s l = s := by
  induction l generalizing s with
  | nil => rfl
  | cons e rest ih =>
    rcases e with ⟨⟨n, lb⟩, m⟩
    have hm := h _ (List.mem_cons_self _ _)
    simp only at hm
    subst hm
    simp only [List.foldl, addCounterSample]
    exact ih s (fun q hq => h q (List.mem_cons_of_mem _ hq))

theorem foldl_addGaugeSample_all_noop (l : List (MetricKey × GMetric))
    (s : List (List (String × String) × List (String × Option Int)))
    (h : ∀ p ∈ l, p.2 = GMetric.noop) :
    List.foldl addGaugeSample s l = s := by
  induction l generalizing s with
  | nil => rfl
  | cons e rest ih =>
    rcases e with ⟨⟨n, lb⟩, m⟩
    have hm := h _ (List.mem_cons_self _ _)
    simp only at hm
    subst hm
    simp only [List.foldl, addGaugeSample]
    exact ih s (fun q hq => h q (List.mem_cons_of_mem _ hq))

/-- C6: a `MetricsSet` whose metrics are all noop-backed (or absent)
yields zero records from `collect()`; and in general noop-backed entries
never contribute to the output — collecting a set equals collecting the
set with its noop entries removed. -/
theorem noop_metrics_yield_nothing (ms1 ms2 : MetricsSet) (t1 t2 : Int)
    (hc : ∀ p ∈ ms1.counters, p.2 = CMetric.noop)
    (hg : ∀ p ∈ ms1.gauges, p.2 = GMetric.noop) :
    ms1.collect t1 = [] ∧ ms2.collect t2 = (stripNoop ms2).collect t2 := by
  constructor
  · unfold MetricsSet.collect collectSamples
    rw [foldl_addCounterSample_all_noop _ _ hc, foldl_addGaugeSample_all_noop _ _ hg]
    rfl
  · unfold MetricsSet.collect collectSamples stripNoop
    rw [foldl_addCounterSample_dropNoopC, foldl_addGaugeSample_dropNoopG]

/-- C6, witness: a set holding one noop counter and one noop gauge
collects to the empty list. -/
theorem noop_metrics_yield_nothing_witness :
    (∀ p ∈ ([(("n", []), CMetric.noop)] :
        List (MetricKey × CMetric)), p.2 = CMetric.noop) ∧
    (MetricsSet.mk [(("n", []), CMetric.noop)] [(("g", []), GMetric.noop)] 0).collect 7 =
      [] := by
  refine ⟨by simp, ?_⟩
  exact (noop_metrics_yield_nothing
    (MetricsSet.mk [(("n", []), CMetric.noop)] [(("g", []), GMetric.noop)] 0)
    (MetricsSet.mk [] [] 0) 7 0 (by simp) (by simp)).1

/-- C5: a set holding two non-noop counters under label key `A` (distinct
names) and one non-noop gauge under label key `B ≠ A` collects to exactly
two records — one with both counter samples and tags from `A`, one with
the gauge sample and tags from `B`; every record carries the single
timestamp of the call, and `tags` is present exactly when the label key
is non-empty. -/
theorem collect_two_counters_one_gauge (n1 n2 n3 : String)
    (A B : List (String × String)) (c1 c2 : Counter) (g : Gauge)
    (i : Nat) (t : Int) (hn : n1 ≠ n2) (hAB : A ≠ B) :
    (MetricsSet.mk [((n1, A), .real c1), ((n2, A), .real c2)]
        [((n3, B), .real g)] i).collect t =
      [{ samples := [(n1, some c1.val), (n2, some c2.val)], timestamp := t,
         tags := if A = [] then none else some A },
       { samples := [(n3, g.val)], timestamp := t,
         tags := if B = [] then none else some B }] := by
  simp [MetricsSet.collect, collectSamples, addCounterSample, addGaugeSample,
    samplesAdd, dictUpdate, hn, hAB]

/-- C5, witness: a concrete set with counters "a", "b" under
`[("k", "1")]` and gauge "c" with no labels. -/
theorem collect_two_counters_one_gauge_witness :
    ("a" : String) ≠ "b" ∧
    ([(("k" : String), ("1" : String))]) ≠ ([] : List (String × String)) ∧
    (MetricsSet.mk
        [(("a", [("k", "1")]), .real ⟨0, "a", 0, 3⟩),
         (("b", [("k", "1")]), .real ⟨1, "b", 0, 5⟩)]
        [(("c", []), .real ⟨2, "c", some 7⟩)] 3).collect 42 =
      [{ samples := [("a", some 3), ("b", some 5)], timestamp := 42,
         tags := some [("k", "1")] },
       { samples := [("c", some 7)], timestamp := 42, tags := none }] := by
  refine ⟨by decide, by decide, ?_⟩
  have h := collect_two_counters_one_gauge "a" "b" "c" [("k", "1")] []
    ⟨0, "a", 0, 3⟩ ⟨1, "b", 0, 5⟩ ⟨2, "c", some 7⟩ 3 42 (by decide) (by decide)
  simpa using h

/-- C10: when the same `(name, labelKey)` holds a real counter in
`_counters` and a real gauge in `_gauges`, both are stored (separate
dicts), but `collect()` emits a single entry for that name, carrying the
gauge's value — gauges are merged into the samples group after counters,
so the gauge silently overwrites the counter's sample. -/
theorem gauge_overwrites_counter_sample (n : String)
    (K : List (String × String)) (c : Counter) (g : Gauge) (i : Nat) (t : Int) :
    lookupA (MetricsSet.mk [((n, K), .real c)] [((n, K), .real g)] i).counters
        (n, K) = some (.real c) ∧
    lookupA (MetricsSet.mk [((n, K), .real c)] [((n, K), .real g)] i).gauges
        (n, K) = some (.real g) ∧
    (MetricsSet.mk [((n, K), .real c)] [((n, K), .real g)] i).collect t =
      [{ samples := [(n, g.val)], timestamp := t,
         tags := if K = [] then none else some K }] := by
  refine ⟨by simp [lookupA], by simp [lookupA], ?_⟩
  simp [MetricsSet.collect, collectSamples, addCounterSample, addGaugeSample,
    samplesAdd, dictUpdate]

/-- C1, counterexample: with two registered sets where the first one's
`collect()` raises, the second set's sample is not forwarded — the
registry's loop has no per-set isolation, so nothing is queued and the
exception propagates (had the failing set been absent, the record would
have been queued). -/
theorem registry_collect_stops_at_failing_set :
    registryCollect [([], some (PyExc.other "boom")), ([rec0], none)] =
      ([], some (PyExc.other "boom")) ∧
    registryCollect [([rec0], none)] = ([(METRICSET, rec0)], none) :=
  ⟨rfl, rfl⟩

/-- C1, amended: when one metric-set's `collect()` raises, the cycle is
aborted rather than isolated: samples of the sets iterated before it
(and whatever the failing set yielded before raising) are forwarded to
the queue function as metricset events, the sets after it are not
collected, and the exception propagates out of
`MetricsRegistry.collect`. -/
theorem registry_collect_aborts_cycle (pre : List (List Record × Option PyExc))
    (recs : List Record) (e : PyExc) (post : List (List Record × Option PyExc))
    (h : ∀ p ∈ pre, p.2 = none) :
    registryCollect (pre ++ (recs, some e) :: post) =
      ((pre.map Prod.fst).flatten.map (fun d => (METRICSET, d)) ++
        recs.map (fun d => (METRICSET, d)), some e) := by
  induction pre with
  | nil => simp [registryCollect]
  | cons p rest ih =>
    rcases p with ⟨r1, o1⟩
    have ho : o1 = none := h (r1, o1) (List.mem_cons_self _ _)
    subst ho
    have ih2 := ih (fun q hq => h q (List.mem_cons_of_mem _ hq))
    simp [registryCollect, ih2]

/-- C1, amended, witness: a healthy set before a failing one has its
record queued; the set after the failure does not. -/
theorem registry_collect_aborts_cycle_witness :
    (∀ p ∈ ([([rec0], none)] : List (List Record × Option PyExc)), p.2 = none) ∧
    registryCollect ([([rec0], none)] ++
        ([], some (PyExc.other "boom")) :: [([rec0], none)]) =
      ([(METRICSET, rec0)], some (PyExc.other "boom")) := by
  refine ⟨by simp, ?_⟩
  have h := registry_collect_aborts_cycle [([rec0], none)] []
    (PyExc.other "boom") [([rec0], none)] (by simp)
  simpa using h

/-- C2, counterexample: a resolution/instantiation failure that is not an
`ImportError` (e.g. a `TypeError` from the constructor) propagates out of
`register` — only `ImportError` is caught. -/
theorem register_non_import_error_raises :
    (MetricsRegistry.mk [] []).register
        (fun _ => Except.error (PyExc.other "TypeError")) "a.b.C" =
      Except.error (PyExc.other "TypeError") := rfl

/-- C2, amended: for an identifier not yet registered whose resolution or
instantiation fails, `register` swallows the failure (logging a warning)
and returns the registry unchanged exactly when the failure is an
`ImportError`; any other exception propagates to the caller (the
`_metricsets` assignment never runs, so the mapping is unchanged in both
cases). -/
theorem register_swallows_only_import_error (reg : MetricsRegistry)
    (imp : String → Except PyExc (MetricsRegistry → Except PyExc MetricsSet))
    (cp : String) (e : PyExc)
    (hnew : lookupA reg.metricsets cp = none)
    (hfail : imp cp = Except.error e ∨
      ∃ ctor, imp cp = Except.ok ctor ∧ ctor reg = Except.error e) :
    (e.isImportError = true → reg.register imp cp = Except.ok reg) ∧
    (e.isImportError = false → reg.register imp cp = Except.error e) := by
  rcases hfail with hf | ⟨ctor, hok, hctor⟩
  · constructor <;> intro hi <;>
      simp [MetricsRegistry.register, hnew, hf, hi]
  · constructor <;> intro hi <;>
      simp [MetricsRegistry.register, hnew, hok, hctor, hi]

/-- C2, amended, witness: an `ImportError` during resolution is swallowed
and the registry is returned unchanged. -/
theorem register_swallows_only_import_error_witness :
    lookupA (MetricsRegistry.mk [] []).metricsets "a.b.C" = none ∧
    (MetricsRegistry.mk [] []).register
        (fun _ => Except.error (PyExc.importError "no module")) "a.b.C" =
      Except.ok (MetricsRegistry.mk [] []) :=
  ⟨rfl,
   (register_swallows_only_import_error (MetricsRegistry.mk [] [])
      (fun _ => Except.error (PyExc.importError "no module")) "a.b.C"
      (PyExc.importError "no module") rfl (Or.inl rfl)).1 rfl⟩

end BaseMetrics
